import Mathlib

/-!
Shallow embedding of the semantic retrieval and caching core of the
Rag_App repository (modules/answer_cache.py, modules/embedding.py,
modules/database.py), together with theorems settling the frozen claims
about it.

Modelling conventions:
*  The external embedding provider (`get_embedding`, which calls a remote
   API and may raise) is a parameter.  Where the source lets an embedding
   exception propagate and abort the call before any state change
   (`find_similar`, `add`), the model takes the already-computed embedding
   (equivalently a total `emb : String → V`) and the theorems describe
   completed calls.  Where the source catches the exception
   (`invalidate_related`, lines 176-180) the provider is `Option`-valued,
   `none` meaning the call raised.
*  `_cosine_similarity` computes a float cosine via numpy over vectors
   returned by the remote provider.  The claims depend only on how scores
   compare with thresholds, so scores are modelled as exact rationals and
   the score function `sim : V → V → ℚ` over an abstract vector type `V`
   is a parameter of each operation, mirroring `self._cosine_similarity`.
*  Python truthiness of an optional string (`if category`,
   `practice.get("id") or ...`) is `optTruthy`: `None` and `""` are falsy.
*  Persistence (`self._save_cache()`) is modelled as a `Bool` effect flag
   where a claim depends on it.
-/

/-- Python truthiness of an optional string value: `None` and the empty
string are falsy, any other string is truthy. -/
def optTruthy : Option String → Bool
  | none => false
  | some s => !s.isEmpty

/-- Python's `not text.strip()`: the string is empty or consists solely
of whitespace (stripping leaves nothing, which is falsy). -/
def isBlank (s : String) : Bool :=
  s.data.all Char.isWhitespace

/-- One entry of the answer cache JSON file: a dict with keys `query`,
`embedding`, `answer`, `category`, `created_at` and (after a merge)
`updated_at`.  `category` is `None` when `add` was called without one;
`updatedAt` is absent (`none`) until the entry is merged into. -/
structure CacheEntry (V : Type) where
  query : String
  embedding : V
  answer : String
  category : Option String
  createdAt : String
  updatedAt : Option String
deriving Repr, DecidableEq

/-- The dict returned by `AnswerCache.find_similar` on a hit: keys
`answer`, `original_query`, `similarity`, `created_at`. -/
structure CacheHit (V : Type) where
  answer : String
  originalQuery : String
  similarity : ℚ
  createdAt : String
deriving Repr, DecidableEq

namespace AnswerCache

/-- `SIMILARITY_THRESHOLD = 0.85` (answer_cache.py line 19). -/
def SIMILARITY_THRESHOLD : ℚ := 85 / 100

/-- One iteration of the scan loop of `find_similar` (lines 86-96): skip
the entry when a truthy `category` was supplied and the entry's stored
category differs from it; otherwise compare its score against the best so
far (strictly) and keep the better pair. -/
def scanStep (sim : V → V → ℚ) (queryEmbedding : V) (category : Option String)
    (acc : Option (CacheEntry V) × ℚ) (entry : CacheEntry V) :
    Option (CacheEntry V) × ℚ :=
  if optTruthy category ∧ entry.category ≠ category then acc
  else if sim queryEmbedding entry.embedding > acc.2 then
    (some entry, sim queryEmbedding entry.embedding)
  else acc

/-- `AnswerCache.find_similar` (lines 64-111): return `None` on an empty
cache, otherwise scan all entries tracking the single best score starting
from `best_match = None, best_score = 0`, and return a hit dict when a
best match exists and its score reaches the threshold (the supplied one,
or `SIMILARITY_THRESHOLD` when `None` was passed). -/
def find_similar (sim : V → V → ℚ) (entries : List (CacheEntry V))
    (queryEmbedding : V) (category : Option String) (threshold : Option ℚ) :
    Option (CacheHit V) :=
  if entries.isEmpty then none
  else
    let best := entries.foldl (scanStep sim queryEmbedding category) (none, 0)
    let targetThreshold := threshold.getD SIMILARITY_THRESHOLD
    match best.1 with
    | some e =>
        if best.2 ≥ targetThreshold then
          some ⟨e.answer, e.query, best.2, e.createdAt⟩
        else none
    | none => none

/-- The scan loop of `add` (lines 125-132): find the first entry whose
similarity to the new query is `≥ 0.98`; if one exists, return the list
with that entry's `answer` overwritten and `updated_at` stamped (the loop
returns immediately, so later entries are not examined); return `none`
when no entry qualifies. -/
def addScan (sim : V → V → ℚ) (queryEmbedding : V) (answer now : String) :
    List (CacheEntry V) → Option (List (CacheEntry V))
  | [] => none
  | e :: rest =>
    if sim queryEmbedding e.embedding ≥ 98 / 100 then
      some ({ e with answer := answer, updatedAt := some now } :: rest)
    else
      (addScan sim queryEmbedding answer now rest).map (e :: ·)

/-- `AnswerCache.add` (lines 113-144): embed the query; if some existing
entry has similarity `≥ 0.98`, update it in place and return; otherwise
append a new entry (its dict has no `updated_at` key) with `created_at`
stamped now.  Both branches call `_save_cache`. -/
def add (sim : V → V → ℚ) (emb : String → V) (now : String)
    (cache : List (CacheEntry V)) (query answer : String)
    (category : Option String) : List (CacheEntry V) :=
  let queryEmbedding := emb query
  match addScan sim queryEmbedding answer now cache with
  | some updated => updated
  | none => cache ++ [⟨query, queryEmbedding, answer, category, now, none⟩]

/-- Result of `invalidate_related`: the surviving entry list, the returned
deletion count, and whether `_save_cache` was called. -/
structure InvalidateResult (V : Type) where
  entries : List (CacheEntry V)
  deleted : ℕ
  saved : Bool
deriving Repr, DecidableEq

/-- The category guard of `invalidate_related` (line 188): an entry is
kept regardless of score iff a truthy category was supplied, the entry's
stored category is truthy, and the two differ. -/
def protectedEntry (category : Option String) (e : CacheEntry V) : Prop :=
  optTruthy category ∧ optTruthy e.category ∧ e.category ≠ category

instance (category : Option String) (e : CacheEntry V) :
    Decidable (protectedEntry category e) := by
  unfold protectedEntry; infer_instance

/-- An entry survives the category pre-filter of the `find_similar` scan
(line 88): it is skipped iff a truthy category was supplied and the
entry's stored category differs from it. -/
def eligibleEntry (category : Option String) (e : CacheEntry V) : Prop :=
  ¬ (optTruthy category ∧ e.category ≠ category)

instance (category : Option String) (e : CacheEntry V) :
    Decidable (eligibleEntry category e) := by
  unfold eligibleEntry; infer_instance

/-- The value of `best_score` at the end of the `find_similar` scan: the
running maximum, starting from `best_score = 0`, of the scores of the
entries that pass the category pre-filter. -/
def bestScore (sim : V → V → ℚ) (entries : List (CacheEntry V))
    (queryEmbedding : V) (category : Option String) : ℚ :=
  (entries.filter fun e => eligibleEntry category e).foldl
    (fun acc e => max acc (sim queryEmbedding e.embedding)) 0

/-- `AnswerCache.invalidate_related` (lines 160-213): return 0 untouched
when the cache is empty or the text is whitespace-only; embed the first
2000 characters of the text, returning 0 untouched if embedding raises;
keep each entry that is category-protected or scores below the threshold,
count the rest as deleted; commit the surviving list and save only when
at least one entry was deleted.  (The per-entry `try/except` around the
similarity computation, lines 193-205, keeps the entry on error; score
computation is total in this model so that branch is never taken.) -/
def invalidate_related (sim : V → V → ℚ) (embE : String → Option V)
    (cache : List (CacheEntry V)) (text : String) (category : Option String)
    (threshold : ℚ) : InvalidateResult V :=
  if cache.isEmpty ∨ isBlank text then ⟨cache, 0, false⟩
  else
    match embE (text.take 2000) with
    | none => ⟨cache, 0, false⟩
    | some textEmbedding =>
      let keep := cache.filter fun e =>
        protectedEntry category e ∨ sim textEmbedding e.embedding < threshold
      let deletedCount := cache.countP fun e =>
        ¬ (protectedEntry category e ∨ sim textEmbedding e.embedding < threshold)
      if 0 < deletedCount then ⟨keep, deletedCount, true⟩
      else ⟨cache, 0, false⟩

end AnswerCache

namespace Embedding

/-- `get_embeddings_batch` (embedding.py lines 54-94): an empty input
returns `[]` without calling the API; otherwise one batch call is tried
(`batchApi`, `none` = the call raised) and its response returned as-is;
on a batch failure the fallback embeds the items one by one with
`get_embedding` (`itemApi`), appending each result — the loop has no
`try/except`, so a failing item makes the whole call raise
(`List.mapM` over `Option` returns `none` as soon as one item is
`none`). -/
def get_embeddings_batch (batchApi : List String → Option (List V))
    (itemApi : String → Option V) (texts : List String) :
    Option (List V) :=
  if texts.isEmpty then some []
  else
    match batchApi texts with
    | some embeddings => some embeddings
    | none => texts.mapM itemApi

end Embedding

/-- The metadata dict built for each practice record
(database.py lines 89-99 and 139-149). -/
structure PracticeMeta where
  title : String
  category : String
  content_type : String
  tags : String
  created_at : String
  updated_at : String
  has_svg : Bool
  has_html : Bool
  has_image : Bool
deriving Repr, DecidableEq

/-- One record of the practices JSON store, with the optional fields the
ChromaManager reads (`practice.get(...)`). -/
structure Practice where
  id : Option String
  title : Option String
  description : Option String
  tags : List String
  category : Option String
  content_type : Option String
  created_at : Option String
  updated_at : Option String
  generated_svg : Option String
  generated_html : Option String
  image_path : Option String
deriving Repr, DecidableEq

/-- One stored item of the Chroma collection: id, embedding vector,
metadata and the searchable document text. -/
structure ChromaItem (V : Type) where
  id : String
  embedding : V
  metadata : PracticeMeta
  document : String
deriving Repr, DecidableEq

namespace ChromaManager

/-- `ChromaManager._create_search_text` (lines 162-169): join title,
description and the space-joined tags with single spaces, dropping falsy
(empty) parts. -/
def create_search_text (p : Practice) : String :=
  String.intercalate " "
    (([p.title.getD "", p.description.getD "",
       String.intercalate " " p.tags]).filter (· ≠ ""))

/-- `practice.get("id") or str(uuid.uuid4())` (line 86): keep a truthy
stored id, otherwise draw a fresh uuid.  The model threads a supply
`uuid : ℕ → String` indexed by the record's position in the batch. -/
def practiceId (uuid : ℕ → String) (k : ℕ) (p : Practice) : String :=
  if optTruthy p.id then p.id.getD "" else uuid k

/-- The metadata dict of `load_from_json` / `add_practice`
(lines 89-99): defaults `"other"` / `"code"`, comma-joined tags, and the
`bool(...)` flags for generated artifacts. -/
def practiceMeta (p : Practice) : PracticeMeta where
  title := p.title.getD ""
  category := p.category.getD "other"
  content_type := p.content_type.getD "code"
  tags := String.intercalate "," p.tags
  created_at := p.created_at.getD ""
  updated_at := p.updated_at.getD ""
  has_svg := optTruthy p.generated_svg
  has_html := optTruthy p.generated_html
  has_image := optTruthy p.image_path

/-- Zip ids, embeddings, metadatas and documents into the items of one
`collection.add` call (lines 110-115). -/
def buildItems (ids : List String) (embs : List V)
    (metas : List PracticeMeta) (docs : List String) : List (ChromaItem V) :=
  List.zipWith (fun idEmb metaDoc => ⟨idEmb.1, idEmb.2, metaDoc.1, metaDoc.2⟩)
    (ids.zip embs) (metas.zip docs)

/-- `ChromaManager.load_from_json` (lines 47-118): a missing file or an
empty `practices` list returns 0 leaving the collection untouched (the
clearing step, lines 73-78, runs only after the emptiness check);
otherwise all existing ids are deleted, ids/documents/metadatas are
prepared in record order, one batch embedding call is made (its failure
propagates: result `none`), Chroma validates that the embedding list
matches the id list in length, the items are added to the now-empty
collection, and `len(practices)` is returned. -/
def load_from_json (batchApi : List String → Option (List V))
    (itemApi : String → Option V) (uuid : ℕ → String)
    (fileData : Option (List Practice)) (coll : List (ChromaItem V)) :
    Option (List (ChromaItem V) × ℕ) :=
  match fileData with
  | none => some (coll, 0)
  | some practices =>
    if practices.isEmpty then some (coll, 0)
    else
      let cleared : List (ChromaItem V) := []
      let ids := practices.mapIdx fun k p => practiceId uuid k p
      let docs := practices.map create_search_text
      let metas := practices.map practiceMeta
      match Embedding.get_embeddings_batch batchApi itemApi docs with
      | none => none
      | some embs =>
        if embs.length = ids.length then
          some (cleared ++ buildItems ids embs metas docs, practices.length)
        else none

/-- `ChromaManager.delete` (lines 329-346): delete the id from the
collection and return `True`.  Chroma's `collection.delete` silently
ignores ids that are not present (it is a no-op, not an error), so the
`except` branch returning `False` is never taken for a missing id. -/
def delete (coll : List (ChromaItem V)) (practice_id : String) :
    List (ChromaItem V) × Bool :=
  (coll.filter fun item => item.id ≠ practice_id, true)

end ChromaManager

/-! ## Helper lemmas -/

namespace AnswerCache

/-- The `add` scan either finds no entry with score `≥ 0.98` (and then
every entry scores below), or finds the first such entry at an index `i`
and returns the list with exactly that position overwritten. -/
lemma addScan_spec (sim : V → V → ℚ) (q : V) (a now : String) :
    ∀ l : List (CacheEntry V),
      (addScan sim q a now l = none ∧ ∀ e ∈ l, sim q e.embedding < 98 / 100) ∨
      (∃ i : Fin l.length, sim q (l.get i).embedding ≥ 98 / 100 ∧
        addScan sim q a now l =
          some (l.set i { l.get i with answer := a, updatedAt := some now })) := by
  intro l
  induction l with
  | nil => left; simp [addScan]
  | cons e rest ih =>
    by_cases h : sim q e.embedding ≥ 98 / 100
    · right
      refine ⟨⟨0, by simp⟩, by simpa using h, ?_⟩
      simp [addScan, h]
    · rcases ih with ⟨hnone, hall⟩ | ⟨i, hsim, heq⟩
      · left
        refine ⟨by simp [addScan, h, hnone], ?_⟩
        intro x hx
        rcases List.mem_cons.mp hx with rfl | hx
        · exact lt_of_not_ge h
        · exact hall x hx
      · right
        refine ⟨⟨i.1 + 1, Nat.succ_lt_succ i.2⟩, by simpa using hsim, ?_⟩
        simp [addScan, h, heq]

/-- Invariants of the `find_similar` scan fold: starting from an
accumulator whose score component is nonnegative and whose match
component is present exactly when the score is positive, the final score
is the running maximum of the eligible entries' scores and the final
match is present exactly when that maximum is positive. -/
lemma foldl_scanStep_spec (sim : V → V → ℚ) (qe : V) (category : Option String) :
    ∀ (l : List (CacheEntry V)) (om : Option (CacheEntry V)) (m : ℚ),
      0 ≤ m → (om.isSome ↔ 0 < m) →
      (l.foldl (scanStep sim qe category) (om, m)).2 =
        (l.filter fun e => eligibleEntry category e).foldl
          (fun acc e => max acc (sim qe e.embedding)) m ∧
      0 ≤ (l.foldl (scanStep sim qe category) (om, m)).2 ∧
      ((l.foldl (scanStep sim qe category) (om, m)).1.isSome ↔
        0 < (l.foldl (scanStep sim qe category) (om, m)).2) := by
  intro l
  induction l with
  | nil => intro om m hm hiff; exact ⟨rfl, hm, hiff⟩
  | cons e rest ih =>
    intro om m hm hiff
    by_cases hskip : optTruthy category ∧ e.category ≠ category
    · have hdec : decide (eligibleEntry category e) = false :=
        decide_eq_false (fun hg => hg hskip)
      have hstep : scanStep sim qe category (om, m) e = (om, m) := by
        simp [scanStep, hskip]
      rw [List.foldl_cons, hstep, List.filter_cons, if_neg (by simp [hdec])]
      exact ih om m hm hiff
    · have helig : eligibleEntry category e := hskip
      have hdec : decide (eligibleEntry category e) = true := decide_eq_true helig
      by_cases hgt : sim qe e.embedding > m
      · have hstep : scanStep sim qe category (om, m) e =
            (some e, sim qe e.embedding) := by
          simp [scanStep, hskip, hgt]
        have hmax : max m (sim qe e.embedding) = sim qe e.embedding :=
          max_eq_right (le_of_lt hgt)
        rw [List.foldl_cons, hstep, List.filter_cons, if_pos hdec,
          List.foldl_cons, hmax]
        exact ih (some e) (sim qe e.embedding) (le_trans hm (le_of_lt hgt))
          (by simp [lt_of_le_of_lt hm hgt])
      · have hstep : scanStep sim qe category (om, m) e = (om, m) := by
          simp [scanStep, hskip, hgt]
        have hmax : max m (sim qe e.embedding) = m :=
          max_eq_left (le_of_not_lt hgt)
        rw [List.foldl_cons, hstep, List.filter_cons, if_pos hdec,
          List.foldl_cons, hmax]
        exact ih om m hm hiff

/-- With a truthy supplied category, the scan of `find_similar` agrees
step by step with an unfiltered scan over only the entries whose stored
category is exactly the supplied one. -/
lemma foldl_scanStep_filter (sim : V → V → ℚ) (qe : V) (c : String)
    (hc : c ≠ "") :
    ∀ (l : List (CacheEntry V)) (acc : Option (CacheEntry V) × ℚ),
      l.foldl (scanStep sim qe (some c)) acc =
        (l.filter fun e => e.category = some c).foldl
          (scanStep sim qe none) acc := by
  have hne : c.isEmpty = false := by
    cases h : c.isEmpty
    · rfl
    · exact absurd ((String.isEmpty_iff c).mp h) hc
  have htruthy : optTruthy (some c) = true := by simp [optTruthy, hne]
  intro l
  induction l with
  | nil => intro acc; rfl
  | cons e rest ih =>
    intro acc
    by_cases hcat : e.category = some c
    · have hdec : decide (e.category = some c) = true := decide_eq_true hcat
      have hstep : scanStep sim qe (some c) acc e = scanStep sim qe none acc e := by
        simp [scanStep, hcat, optTruthy]
      rw [List.foldl_cons, hstep, List.filter_cons, if_pos hdec, List.foldl_cons]
      exact ih _
    · have hdec : decide (e.category = some c) = false := decide_eq_false hcat
      have hstep : scanStep sim qe (some c) acc e = acc := by
        simp [scanStep, htruthy, hcat]
      rw [List.foldl_cons, hstep, List.filter_cons, if_neg (by simp [hdec])]
      exact ih _

/-- Characterization of `invalidate_related` on the main path (nonempty
cache, non-blank text, successful embedding): the surviving entries are
exactly the category-protected or below-threshold ones, the returned
count counts the removed ones, and the cache is persisted iff that count
is positive. -/
lemma invalidate_related_spec (sim : V → V → ℚ) (embE : String → Option V)
    (cache : List (CacheEntry V)) (text : String) (category : Option String)
    (threshold : ℚ) (tv : V) (htext : isBlank text = false)
    (hemb : embE (text.take 2000) = some tv) :
    (invalidate_related sim embE cache text category threshold).entries =
      cache.filter (fun e =>
        protectedEntry category e ∨ sim tv e.embedding < threshold) ∧
    (invalidate_related sim embE cache text category threshold).deleted =
      cache.countP (fun e =>
        ¬ (protectedEntry category e ∨ sim tv e.embedding < threshold)) ∧
    ((invalidate_related sim embE cache text category threshold).saved = true ↔
      0 < cache.countP (fun e =>
        ¬ (protectedEntry category e ∨ sim tv e.embedding < threshold))) := by
  by_cases hc : cache.isEmpty
  · have hnil : cache = [] := List.isEmpty_iff.mp hc
    subst hnil
    simp [invalidate_related]
  · have hcond : ¬ (cache.isEmpty = true ∨ isBlank text = true) := by
      simp [hc, htext]
    simp only [invalidate_related, hemb]
    rw [if_neg hcond]
    by_cases hpos : 0 < cache.countP (fun e =>
        ¬ (protectedEntry category e ∨ sim tv e.embedding < threshold))
    · rw [if_pos hpos]
      exact ⟨rfl, rfl, iff_of_true rfl hpos⟩
    · rw [if_neg hpos]
      have hzero : cache.countP (fun e =>
          ¬ (protectedEntry category e ∨ sim tv e.embedding < threshold)) = 0 :=
        Nat.eq_zero_of_not_pos hpos
      have hfilter : cache.filter (fun e =>
          protectedEntry category e ∨ sim tv e.embedding < threshold) = cache := by
        apply List.filter_eq_self.mpr
        intro e he
        have h1 := List.countP_eq_zero.mp hzero e he
        have h2 : protectedEntry category e ∨ sim tv e.embedding < threshold := by
          by_contra hno
          exact h1 (by simpa using hno)
        simpa using h2
      exact ⟨hfilter.symm, hzero.symm, iff_of_false (by simp) hpos⟩

end AnswerCache

/-- A truthy optional string is a present, nonempty string. -/
lemma optTruthy_some (s : String) : optTruthy (some s) = true ↔ s ≠ "" := by
  unfold optTruthy
  rw [Bool.not_eq_true']
  constructor
  · intro h heq
    rw [heq] at h
    exact absurd h (by decide)
  · intro h
    cases hi : s.isEmpty
    · rfl
    · exact absurd ((String.isEmpty_iff s).mp hi) h

/-- If no element of a list fails a predicate, filtering by that
predicate returns the list unchanged. -/
lemma filter_eq_self_of_countP_not (l : List α) (p : α → Prop) [DecidablePred p]
    (h : l.countP (fun a => ¬ p a) = 0) : l.filter (fun a => p a) = l := by
  apply List.filter_eq_self.mpr
  intro a ha
  have h1 := List.countP_eq_zero.mp h a ha
  have h2 : p a := by
    by_contra hno
    exact h1 (by simpa using hno)
  simpa using h2

/-- A successful `Option`-valued `mapM` relates input and output
pointwise: same length, and the k-th output is the embedding of the k-th
input. -/
lemma mapM_option_eq_some (f : α → Option β) :
    ∀ (l : List α) (r : List β), l.mapM f = some r →
      List.Forall₂ (fun a b => f a = some b) l r := by
  intro l
  induction l with
  | nil =>
    intro r h
    rw [List.mapM_nil] at h
    cases h
    exact List.Forall₂.nil
  | cons a l ih =>
    intro r h
    rw [List.mapM_cons] at h
    cases hfa : f a with
    | none => rw [hfa] at h; cases h
    | some b =>
      rw [hfa] at h
      cases hml : l.mapM f with
      | none => rw [hml] at h; cases h
      | some bs =>
        rw [hml] at h
        cases h
        exact List.Forall₂.cons hfa (ih bs hml)

/-- An `Option`-valued `mapM` fails exactly when some element fails. -/
lemma mapM_option_eq_none (f : α → Option β) :
    ∀ l : List α, (l.mapM f = none ↔ ∃ a ∈ l, f a = none) := by
  intro l
  induction l with
  | nil => rw [List.mapM_nil]; simp
  | cons a l ih =>
    constructor
    · intro h
      rw [List.mapM_cons] at h
      cases hfa : f a with
      | none => exact ⟨a, List.mem_cons_self a l, hfa⟩
      | some b =>
        rw [hfa] at h
        cases hml : l.mapM f with
        | none =>
          obtain ⟨t, ht, hft⟩ := ih.mp hml
          exact ⟨t, List.mem_cons_of_mem a ht, hft⟩
        | some bs => rw [hml] at h; cases h
    · rintro ⟨t, ht, hft⟩
      rw [List.mapM_cons]
      rcases List.mem_cons.mp ht with rfl | ht
      · rw [hft]; rfl
      · cases hfa : f a with
        | none => rfl
        | some b => rw [ih.mpr ⟨t, ht, hft⟩]; rfl

/-! ## Claim theorems -/

/-- C1: `add(query, answer, category)` merges when some existing entry has
similarity `≥ 0.98` to the query embedding — that entry's answer is
overwritten and its `updated_at` stamped, no new entry is created and the
entry count is unchanged — and otherwise appends a fresh entry stamped
`created_at`.  Consequently, `add t1 a1` then `add t2 a2` starting from
the empty cache, with `sim (emb t2) (emb t1) ≥ 0.98`, leaves exactly one
entry and its answer is `a2`. -/
theorem C1_add_merge_or_insert (V : Type) (sim : V → V → ℚ) (emb : String → V)
    (now now2 : String) (cache : List (CacheEntry V)) (query answer : String)
    (category : Option String) :
    ((∃ e ∈ cache, sim (emb query) e.embedding ≥ 98 / 100) →
      (AnswerCache.add sim emb now cache query answer category).length = cache.length ∧
      ∃ i : Fin cache.length, sim (emb query) (cache.get i).embedding ≥ 98 / 100 ∧
        AnswerCache.add sim emb now cache query answer category =
          cache.set i { cache.get i with answer := answer, updatedAt := some now }) ∧
    ((∀ e ∈ cache, sim (emb query) e.embedding < 98 / 100) →
      AnswerCache.add sim emb now cache query answer category =
        cache ++ [⟨query, emb query, answer, category, now, none⟩]) ∧
    (∀ t1 t2 a1 a2 : String, ∀ c1 c2 : Option String,
      sim (emb t2) (emb t1) ≥ 98 / 100 →
      AnswerCache.add sim emb now2 (AnswerCache.add sim emb now [] t1 a1 c1) t2 a2 c2 =
        [⟨t1, emb t1, a2, c1, now, some now2⟩]) := by
  refine ⟨?_, ?_, ?_⟩
  · rintro ⟨e, he, hsim⟩
    rcases AnswerCache.addScan_spec sim (emb query) answer now cache with
      ⟨_, hall⟩ | ⟨i, hsimi, heq⟩
    · exact absurd (hall e he) (not_lt.mpr hsim)
    · refine ⟨?_, i, hsimi, ?_⟩ <;> simp [AnswerCache.add, heq]
  · intro hall
    rcases AnswerCache.addScan_spec sim (emb query) answer now cache with
      ⟨hnone, _⟩ | ⟨i, hsimi, _⟩
    · simp [AnswerCache.add, hnone]
    · exact absurd (hall (cache.get i) (cache.get_mem i.1 i.2)) (not_lt.mpr hsimi)
  · intro t1 t2 a1 a2 c1 c2 hsim
    simp [AnswerCache.add, AnswerCache.addScan, hsim]

/-- Witness for C1: with a two-call scenario on the empty cache using a
concrete similarity and embedding, the cache ends with the single merged
entry carrying the second answer. -/
theorem C1_add_merge_or_insert_witness :
    AnswerCache.add (V := ℚ) (fun a b => if a = b then 1 else 0) (fun _ => 5) "T2"
      (AnswerCache.add (fun a b => if a = b then 1 else 0) (fun _ => 5) "T1"
        [] "t1" "a1" (some "cat")) "t2" "a2" none =
      [⟨"t1", 5, "a2", some "cat", "T1", some "T2"⟩] :=
  (C1_add_merge_or_insert ℚ (fun a b => if a = b then 1 else 0) (fun _ => 5)
    "T1" "T2" [] "t1" "a1" none).2.2 "t1" "t2" "a1" "a2" (some "cat") none
    (by norm_num)

/-- C2 is false as stated: with a supplied category, an entry with **no**
stored category is skipped by the scan (Python evaluates
`entry.get("category") != category` as `None != "html_css"`, which is
true), so a cache whose only entry has no category yields a miss even
though that entry's similarity 1 exceeds the threshold 0.85. -/
theorem C2_counterexample :
    AnswerCache.find_similar (V := Unit) (fun _ _ => 1)
      [⟨"q0", (), "cached", none, "T0", none⟩] () (some "html_css")
      (some (85 / 100)) = none ∧
    (85 / 100 : ℚ) ≤ 1 :=
  ⟨rfl, by norm_num⟩

/-- C2 (amended): with a truthy supplied category, `find_similar` scans
exactly the entries whose stored category equals the supplied one —
entries with a different stored category and entries with no stored
category are both excluded from the similarity scan. -/
theorem C2_category_filter (V : Type) (sim : V → V → ℚ)
    (entries : List (CacheEntry V)) (qe : V) (c : String) (hc : c ≠ "")
    (threshold : Option ℚ) :
    AnswerCache.find_similar sim entries qe (some c) threshold =
      AnswerCache.find_similar sim
        (entries.filter fun e => e.category = some c) qe none threshold := by
  have hfold : entries.foldl (AnswerCache.scanStep sim qe (some c)) (none, 0) =
      (entries.filter fun e => e.category = some c).foldl
        (AnswerCache.scanStep sim qe none) (none, 0) :=
    AnswerCache.foldl_scanStep_filter sim qe c hc entries (none, 0)
  by_cases hF : (entries.filter fun e => e.category = some c).isEmpty
  · have hFnil : (entries.filter fun e => e.category = some c) = [] :=
      List.isEmpty_iff.mp hF
    simp [AnswerCache.find_similar, hfold, hFnil]
  · have hF' : (entries.filter fun e => e.category = some c).isEmpty = false := by
      simpa using hF
    by_cases hE : entries.isEmpty
    · have hnil : entries = [] := List.isEmpty_iff.mp hE
      subst hnil
      simp at hF'
    · have hE' : entries.isEmpty = false := by simpa using hE
      simp [AnswerCache.find_similar, hE', hF', hfold]

/-- Witness for the amended C2: a two-entry cache with one matching-
category entry; the filtered scan agrees with the category scan. -/
theorem C2_category_filter_witness :
    AnswerCache.find_similar (V := Unit) (fun _ _ => 1)
      [⟨"q0", (), "a0", none, "T0", none⟩,
       ⟨"q1", (), "a1", some "html_css", "T1", none⟩] () (some "html_css")
      (some (85 / 100)) =
      AnswerCache.find_similar (fun _ _ => 1)
        (([⟨"q0", (), "a0", none, "T0", none⟩,
           ⟨"q1", (), "a1", some "html_css", "T1", none⟩] :
            List (CacheEntry Unit)).filter fun e => e.category = some "html_css")
        () none (some (85 / 100)) :=
  C2_category_filter Unit (fun _ _ => 1)
    [⟨"q0", (), "a0", none, "T0", none⟩,
     ⟨"q1", (), "a1", some "html_css", "T1", none⟩] () "html_css"
    (by decide) (some (85 / 100))

/-- C4 is false as stated: a cache whose single entry scores exactly 0
against the query has best score `0 ≥ 0 = threshold`, yet `find_similar`
returns a miss, because `best_match` only moves on a strictly positive
score (`score > best_score` with `best_score` initialised to 0). -/
theorem C4_counterexample :
    AnswerCache.find_similar (V := Unit) (fun _ _ => 0)
      [⟨"q0", (), "a0", none, "T0", none⟩] () none (some 0) = none ∧
    (0 : ℚ) ≤ (fun (_ : Unit) (_ : Unit) => (0 : ℚ)) () () :=
  ⟨rfl, le_refl 0⟩

/-- C4 (amended): for a fixed cache and query, `find_similar` with
threshold `t` hits iff the best score over the category-eligible entries
is strictly positive **and** at least `t` (entries with nonpositive score
can never become the best match because the tracker starts at 0);
consequently raising the threshold can only turn hits into misses. -/
theorem C4_threshold_monotonicity (V : Type) (sim : V → V → ℚ)
    (entries : List (CacheEntry V)) (qe : V) (category : Option String) :
    (∀ t : ℚ,
      (AnswerCache.find_similar sim entries qe category (some t)).isSome ↔
        (0 < AnswerCache.bestScore sim entries qe category ∧
         t ≤ AnswerCache.bestScore sim entries qe category)) ∧
    (∀ t1 t2 : ℚ, t1 ≤ t2 →
      (AnswerCache.find_similar sim entries qe category (some t2)).isSome →
      (AnswerCache.find_similar sim entries qe category (some t1)).isSome) := by
  have hmain : ∀ t : ℚ,
      (AnswerCache.find_similar sim entries qe category (some t)).isSome ↔
        (0 < AnswerCache.bestScore sim entries qe category ∧
         t ≤ AnswerCache.bestScore sim entries qe category) := by
    intro t
    by_cases hE : entries.isEmpty
    · have hnil : entries = [] := List.isEmpty_iff.mp hE
      subst hnil
      simp [AnswerCache.find_similar, AnswerCache.bestScore]
    · have hE' : entries.isEmpty = false := by simpa using hE
      obtain ⟨hsnd, hnn, hiff⟩ :=
        AnswerCache.foldl_scanStep_spec sim qe category entries none 0 le_rfl
          (by simp)
      have hbs : (entries.foldl (AnswerCache.scanStep sim qe category)
          (none, 0)).2 = AnswerCache.bestScore sim entries qe category := by
        rw [AnswerCache.bestScore]; exact hsnd
      cases hr : (entries.foldl (AnswerCache.scanStep sim qe category)
          (none, 0)).1 with
      | none =>
        have hnot : ¬ 0 < (entries.foldl (AnswerCache.scanStep sim qe category)
            (none, 0)).2 := by
          rw [hr] at hiff; simpa using hiff.symm.mp
        simp [AnswerCache.find_similar, hE', hr, ← hbs, hnot]
      | some e =>
        have hpos : 0 < (entries.foldl (AnswerCache.scanStep sim qe category)
            (none, 0)).2 := hiff.mp (by rw [hr]; rfl)
        by_cases hge : (entries.foldl (AnswerCache.scanStep sim qe category)
            (none, 0)).2 ≥ t
        · simp [AnswerCache.find_similar, hE', hr, ← hbs, hpos, hge]
        · simp [AnswerCache.find_similar, hE', hr, ← hbs, hge]
  refine ⟨hmain, ?_⟩
  intro t1 t2 h12 hhit
  have h2 := (hmain t2).mp hhit
  exact (hmain t1).mpr ⟨h2.1, le_trans h12 h2.2⟩

/-- Witness for the amended C4: a one-entry cache with score 1 hits at
threshold 1/2 because the 1/2 ≤ 1 hit at threshold 1 persists when the
threshold is lowered. -/
theorem C4_threshold_monotonicity_witness :
    (AnswerCache.find_similar (V := Unit) (fun _ _ => 1)
      [⟨"q0", (), "a0", none, "T0", none⟩] () none (some (1 / 2))).isSome := by
  have h := C4_threshold_monotonicity Unit (fun _ _ => 1)
    [⟨"q0", (), "a0", none, "T0", none⟩] () none
  exact h.2 (1 / 2) 1 (by norm_num)
    ((h.1 1).mpr ⟨by decide, by decide⟩)

/-- C9: when `add` takes the merge branch, only the first qualifying
entry's `answer` and `updated_at` change — its query text, embedding,
category and `created_at` are preserved, the `category` argument is
discarded, and every other entry of the cache is untouched. -/
theorem C9_merge_frame (V : Type) (sim : V → V → ℚ) (emb : String → V)
    (now : String) (cache : List (CacheEntry V)) (query answer : String)
    (h : ∃ e ∈ cache, sim (emb query) e.embedding ≥ 98 / 100) :
    ∃ i : Fin cache.length,
      sim (emb query) (cache.get i).embedding ≥ 98 / 100 ∧
      (∀ category : Option String,
        AnswerCache.add sim emb now cache query answer category =
          cache.set i ⟨(cache.get i).query, (cache.get i).embedding, answer,
            (cache.get i).category, (cache.get i).createdAt, some now⟩) ∧
      (∀ c c' : Option String,
        AnswerCache.add sim emb now cache query answer c =
          AnswerCache.add sim emb now cache query answer c') ∧
      (∀ category : Option String, ∀ j : ℕ, j ≠ (i : ℕ) →
        (AnswerCache.add sim emb now cache query answer category).get? j =
          cache.get? j) := by
  rcases AnswerCache.addScan_spec sim (emb query) answer now cache with
    ⟨_, hall⟩ | ⟨i, hsimi, heq⟩
  · rcases h with ⟨e, he, hsim⟩
    exact absurd (hall e he) (not_lt.mpr hsim)
  · refine ⟨i, hsimi, ?_, ?_, ?_⟩
    · intro category; simp [AnswerCache.add, heq]
    · intro c c'; simp [AnswerCache.add, heq]
    · intro category j hj
      simp only [AnswerCache.add, heq]
      simp only [List.get?_eq_getElem?]
      exact List.getElem?_set_ne (fun hij => hj hij.symm)

/-- Witness for C9: a concrete one-entry cache whose entry matches the
incoming query at similarity 1 is merged in place, keeping its query,
embedding, category and `created_at`, and the category argument passed to
`add` is not written onto it. -/
theorem C9_merge_frame_witness :
    AnswerCache.add (fun a b : ℚ => if a = b then 1 else 0) (fun _ => (5 : ℚ))
      "T1" [⟨"q0", 5, "a0", some "c0", "T0", none⟩] "q1" "a1" (some "catArg") =
      [⟨"q0", 5, "a1", some "c0", "T0", some "T1"⟩] := by
  obtain ⟨i, _, hset, -, -⟩ :=
    C9_merge_frame ℚ (fun a b => if a = b then 1 else 0) (fun _ => 5) "T1"
      [⟨"q0", 5, "a0", some "c0", "T0", none⟩] "q1" "a1"
      ⟨⟨"q0", 5, "a0", some "c0", "T0", none⟩, by simp, by norm_num⟩
  have h1 : (i : ℕ) < 1 := by simp
  have h0 : (i : ℕ) = 0 := Nat.lt_one_iff.mp h1
  have hi : i = ⟨0, by simp⟩ := Fin.ext h0
  subst hi
  simpa using hset (some "catArg")

/-- C3: on the main path (non-blank text, successful embedding),
`invalidate_related` keeps exactly the entries that are category-protected
or score strictly below the threshold — so every eligible entry scoring
`≥ threshold` (boundary included) is removed and none below it is — and
returns the count of removed entries; it is a total function, so a call
deleting zero entries returns normally with count 0. -/
theorem C3_invalidate_threshold_exact (V : Type) (sim : V → V → ℚ)
    (embE : String → Option V) (cache : List (CacheEntry V)) (text : String)
    (category : Option String) (threshold : ℚ) (tv : V)
    (htext : isBlank text = false) (hemb : embE (text.take 2000) = some tv) :
    (AnswerCache.invalidate_related sim embE cache text category threshold).entries =
      cache.filter (fun e =>
        AnswerCache.protectedEntry category e ∨ sim tv e.embedding < threshold) ∧
    (AnswerCache.invalidate_related sim embE cache text category threshold).deleted =
      cache.countP (fun e =>
        ¬ (AnswerCache.protectedEntry category e ∨ sim tv e.embedding < threshold)) := by
  have h := AnswerCache.invalidate_related_spec sim embE cache text category
    threshold tv htext hemb
  exact ⟨h.1, h.2.1⟩

/-- Witness for C3, with the boundary case score `= threshold`: the entry
scoring exactly the threshold against the text embedding is removed, the
entry scoring below it is kept, and the returned count is 1. -/
theorem C3_invalidate_threshold_exact_witness :
    ((AnswerCache.invalidate_related (V := ℚ) (fun _ b => b) (fun _ => some 0)
      [⟨"flex card layout", 1, "a0", none, "T0", none⟩,
       ⟨"unrelated", 0, "a1", none, "T1", none⟩]
      "flexbox layout correction" none 1).entries =
      [⟨"unrelated", 0, "a1", none, "T1", none⟩]) ∧
    ((AnswerCache.invalidate_related (V := ℚ) (fun _ b => b) (fun _ => some 0)
      [⟨"flex card layout", 1, "a0", none, "T0", none⟩,
       ⟨"unrelated", 0, "a1", none, "T1", none⟩]
      "flexbox layout correction" none 1).deleted = 1) := by
  have h := C3_invalidate_threshold_exact ℚ (fun _ b => b) (fun _ => some 0)
    [⟨"flex card layout", 1, "a0", none, "T0", none⟩,
     ⟨"unrelated", 0, "a1", none, "T1", none⟩]
    "flexbox layout correction" none 1 0 (by decide) rfl
  rw [h.1, h.2]
  exact ⟨by decide, by decide⟩

/-- C7: with a truthy supplied category, an entry is protected from
invalidation (kept regardless of its score) iff it has a non-null stored
category different from the supplied one; entries with no stored category,
and entries whose category equals the supplied one, are eligible — they
survive iff they score strictly below the threshold.  (Categories are
assumed nonempty strings, per the data model where a category is a member
of a fixed enumeration or absent.) -/
theorem C7_invalidate_category_protection (V : Type) (sim : V → V → ℚ)
    (embE : String → Option V) (cache : List (CacheEntry V)) (text : String)
    (c : String) (threshold : ℚ) (tv : V) (hc : c ≠ "")
    (hcats : ∀ e ∈ cache, e.category ≠ some "")
    (htext : isBlank text = false) (hemb : embE (text.take 2000) = some tv) :
    (∀ e ∈ cache, e.category ≠ none → e.category ≠ some c →
      e ∈ (AnswerCache.invalidate_related sim embE cache text (some c)
        threshold).entries) ∧
    (∀ e ∈ cache, e.category = none →
      (e ∈ (AnswerCache.invalidate_related sim embE cache text (some c)
        threshold).entries ↔ sim tv e.embedding < threshold)) ∧
    (∀ e ∈ cache, e.category = some c →
      (e ∈ (AnswerCache.invalidate_related sim embE cache text (some c)
        threshold).entries ↔ sim tv e.embedding < threshold)) := by
  have hspec := AnswerCache.invalidate_related_spec sim embE cache text (some c)
    threshold tv htext hemb
  rw [hspec.1]
  refine ⟨?_, ?_, ?_⟩
  · intro e he hne hnec
    obtain ⟨d, hd⟩ : ∃ d, e.category = some d := by
      cases hcat : e.category with
      | none => exact absurd hcat hne
      | some d => exact ⟨d, rfl⟩
    have hdne : d ≠ "" := fun h0 => hcats e he (by rw [hd, h0])
    refine List.mem_filter.mpr ⟨he, ?_⟩
    have hprot : AnswerCache.protectedEntry (some c) e :=
      ⟨(optTruthy_some c).mpr hc, by rw [hd]; exact (optTruthy_some d).mpr hdne,
        hnec⟩
    exact decide_eq_true (Or.inl hprot)
  · intro e he hnone
    have hprotF : ¬ AnswerCache.protectedEntry (some c) e := by
      rintro ⟨-, h2, -⟩
      rw [hnone] at h2
      exact absurd h2 (by simp [optTruthy])
    rw [List.mem_filter]
    constructor
    · rintro ⟨-, hp⟩
      rcases of_decide_eq_true hp with hP | hQ
      · exact absurd hP hprotF
      · exact hQ
    · intro hQ
      exact ⟨he, decide_eq_true (Or.inr hQ)⟩
  · intro e he hsome
    have hprotF : ¬ AnswerCache.protectedEntry (some c) e := by
      rintro ⟨-, -, h3⟩
      exact h3 hsome
    rw [List.mem_filter]
    constructor
    · rintro ⟨-, hp⟩
      rcases of_decide_eq_true hp with hP | hQ
      · exact absurd hP hprotF
      · exact hQ
    · intro hQ
      exact ⟨he, decide_eq_true (Or.inr hQ)⟩

/-- Witness for C7: the entry carrying a different non-null category
survives invalidation even though its score 1 is far above the threshold
0.6, while the category-less entry at the same score is removed. -/
theorem C7_invalidate_category_protection_witness :
    (⟨"q1", (1 : ℚ), "a1", some "docs", "T1", none⟩ : CacheEntry ℚ) ∈
      (AnswerCache.invalidate_related (fun _ b => b) (fun _ => some 0)
        [⟨"q1", 1, "a1", some "docs", "T1", none⟩,
         ⟨"q2", 1, "a2", none, "T2", none⟩]
        "new knowledge text" (some "css") 1).entries ∧
    ¬ ((⟨"q2", (1 : ℚ), "a2", none, "T2", none⟩ : CacheEntry ℚ) ∈
      (AnswerCache.invalidate_related (fun _ b => b) (fun _ => some 0)
        [⟨"q1", 1, "a1", some "docs", "T1", none⟩,
         ⟨"q2", 1, "a2", none, "T2", none⟩]
        "new knowledge text" (some "css") 1).entries) := by
  have h := C7_invalidate_category_protection ℚ (fun _ b => b)
    (fun _ => some 0)
    [⟨"q1", 1, "a1", some "docs", "T1", none⟩,
     ⟨"q2", 1, "a2", none, "T2", none⟩]
    "new knowledge text" "css" 1 0 (by decide) (by decide) (by decide) rfl
  constructor
  · exact h.1 ⟨"q1", 1, "a1", some "docs", "T1", none⟩ (by simp) (by simp)
      (by simp)
  · intro hmem
    have := (h.2.1 ⟨"q2", 1, "a2", none, "T2", none⟩ (by simp) rfl).mp hmem
    norm_num at this

/-- C10: `invalidate_related` returns 0 with the cache untouched and no
persistence write when the cache is empty, when the text is blank after
stripping, or when embedding the text raises; and in every case the cache
is persisted iff at least one entry was deleted, a zero count leaving the
entry list unchanged and unsaved. -/
theorem C10_invalidate_guards (V : Type) (sim : V → V → ℚ)
    (embE : String → Option V) (cache : List (CacheEntry V)) (text : String)
    (category : Option String) (threshold : ℚ) :
    (cache = [] →
      AnswerCache.invalidate_related sim embE cache text category threshold =
        ⟨cache, 0, false⟩) ∧
    (isBlank text = true →
      AnswerCache.invalidate_related sim embE cache text category threshold =
        ⟨cache, 0, false⟩) ∧
    (embE (text.take 2000) = none →
      AnswerCache.invalidate_related sim embE cache text category threshold =
        ⟨cache, 0, false⟩) ∧
    ((AnswerCache.invalidate_related sim embE cache text category
        threshold).saved = true ↔
      0 < (AnswerCache.invalidate_related sim embE cache text category
        threshold).deleted) ∧
    ((AnswerCache.invalidate_related sim embE cache text category
        threshold).deleted = 0 →
      (AnswerCache.invalidate_related sim embE cache text category
        threshold).entries = cache ∧
      (AnswerCache.invalidate_related sim embE cache text category
        threshold).saved = false) := by
  refine ⟨?_, ?_, ?_, ?_⟩
  · intro h
    subst h
    simp [AnswerCache.invalidate_related]
  · intro h
    unfold AnswerCache.invalidate_related
    rw [if_pos (Or.inr h)]
  · intro h
    by_cases hguard : cache.isEmpty = true ∨ isBlank text = true
    · unfold AnswerCache.invalidate_related
      rw [if_pos hguard]
    · unfold AnswerCache.invalidate_related
      rw [if_neg hguard, h]
  · by_cases hguard : cache.isEmpty = true ∨ isBlank text = true
    · have hres : AnswerCache.invalidate_related sim embE cache text category
          threshold = ⟨cache, 0, false⟩ := by
        unfold AnswerCache.invalidate_related
        rw [if_pos hguard]
      rw [hres]
      simp
    · cases hembE : embE (text.take 2000) with
      | none =>
        have hres : AnswerCache.invalidate_related sim embE cache text category
            threshold = ⟨cache, 0, false⟩ := by
          unfold AnswerCache.invalidate_related
          rw [if_neg hguard, hembE]
        rw [hres]
        simp
      | some tv =>
        have htext : isBlank text = false :=
          Bool.eq_false_iff.mpr (fun ht => hguard (Or.inr ht))
        obtain ⟨h1, h2, h3⟩ := AnswerCache.invalidate_related_spec sim embE
          cache text category threshold tv htext hembE
        refine ⟨by rw [h3, h2], ?_⟩
        intro hdel
        rw [h2] at hdel
        refine ⟨?_, ?_⟩
        · rw [h1]
          exact filter_eq_self_of_countP_not cache
            (fun e => AnswerCache.protectedEntry category e ∨
              sim tv e.embedding < threshold) hdel
        · have hns : ¬ ((AnswerCache.invalidate_related sim embE cache text
              category threshold).saved = true) := by
            rw [h3, hdel]
            simp
          exact Bool.eq_false_iff.mpr (fun ht => hns ht)

/-- Witness for C10: a whitespace-only text on a nonempty cache returns
count 0 with the entry untouched and nothing persisted. -/
theorem C10_invalidate_guards_witness :
    AnswerCache.invalidate_related (V := ℚ) (fun _ b => b) (fun _ => some 0)
      [⟨"q0", 1, "a0", none, "T0", none⟩] "   " none 1 =
      ⟨[⟨"q0", 1, "a0", none, "T0", none⟩], 0, false⟩ :=
  (C10_invalidate_guards ℚ (fun _ b => b) (fun _ => some 0)
    [⟨"q0", 1, "a0", none, "T0", none⟩] "   " none 1).2.1 (by decide)

/-- C5 is false as stated: when the batch call fails, the sequential
fallback loop (embedding.py lines 90-93) calls `get_embedding` with no
per-item `try/except`, so a single failing item makes the whole call
raise even though another item can be embedded. -/
theorem C5_counterexample :
    Embedding.get_embeddings_batch (V := ℚ) (fun _ => none)
      (fun t => if t = "a" then some 1 else none) ["a", "b"] = none ∧
    (fun t => if t = "a" then some (1 : ℚ) else none) "a" = some 1 :=
  ⟨rfl, rfl⟩

/-- C5 (amended): an empty input returns `[]`; a successful batch call
returns the provider's response as-is (one vector per text whenever the
provider honours its contract); on a batch failure the call falls back to
sequential per-item embedding, which preserves order and produces exactly
one vector per text when it succeeds, but raises as soon as **any** item
fails — not only when every item fails. -/
theorem C5_batch_fallback (V : Type) (batchApi : List String → Option (List V))
    (itemApi : String → Option V) (texts : List String) :
    (texts = [] →
      Embedding.get_embeddings_batch batchApi itemApi texts = some []) ∧
    (texts ≠ [] → ∀ l, batchApi texts = some l →
      Embedding.get_embeddings_batch batchApi itemApi texts = some l) ∧
    (texts ≠ [] → batchApi texts = none →
      Embedding.get_embeddings_batch batchApi itemApi texts =
        texts.mapM itemApi ∧
      (∀ r, texts.mapM itemApi = some r →
        List.Forall₂ (fun t v => itemApi t = some v) texts r) ∧
      (texts.mapM itemApi = none ↔ ∃ t ∈ texts, itemApi t = none)) := by
  refine ⟨?_, ?_, ?_⟩
  · intro h
    subst h
    rfl
  · intro hne l hbatch
    unfold Embedding.get_embeddings_batch
    rw [if_neg (fun hh => hne (List.isEmpty_iff.mp hh)), hbatch]
  · intro hne hbatch
    have hgeb : Embedding.get_embeddings_batch batchApi itemApi texts =
        texts.mapM itemApi := by
      unfold Embedding.get_embeddings_batch
      rw [if_neg (fun hh => hne (List.isEmpty_iff.mp hh)), hbatch]
    exact ⟨hgeb, fun r hr => mapM_option_eq_some itemApi texts r hr,
      mapM_option_eq_none itemApi texts⟩

/-- Witness for the amended C5: a failing batch falls back to the
per-item provider, returning its sequential results. -/
theorem C5_batch_fallback_witness :
    Embedding.get_embeddings_batch (V := ℚ) (fun _ => none)
      (fun t => if t = "a" then some 1 else some 2) ["a", "b"] =
      (["a", "b"].mapM fun t => if t = "a" then some (1 : ℚ) else some 2) :=
  ((C5_batch_fallback ℚ (fun _ => none)
    (fun t => if t = "a" then some 1 else some 2) ["a", "b"]).2.2
    (by simp) rfl).1

/-- C6 is false as stated: rebuilding from a store with zero live records
returns 0 but leaves the previously indexed vectors in place — the
emptiness check (database.py line 67) returns before the clearing step
(line 73), so the index is **not** left empty. -/
theorem C6_counterexample :
    ChromaManager.load_from_json (V := ℚ) (fun _ => none) (fun _ => none)
      (fun _ => "uuid")
      (some [])
      [⟨"id1", 1, ⟨"t", "other", "code", "", "", "", false, false, false⟩,
        "doc"⟩] =
      some ([⟨"id1", 1, ⟨"t", "other", "code", "", "", "", false, false, false⟩,
        "doc"⟩], 0) ∧
    ([⟨"id1", 1, ⟨"t", "other", "code", "", "", "", false, false, false⟩,
        "doc"⟩] : List (ChromaItem ℚ)) ≠ [] :=
  ⟨rfl, by simp⟩

/-- C6 (amended): a missing store file or a store with zero records
returns 0 leaving the collection untouched; for a nonempty store, when
the batch embedding succeeds with one vector per document, the previous
contents are cleared, the collection afterwards holds exactly one item
per record (in store order), and the record count is returned. -/
theorem C6_rebuild (V : Type) (batchApi : List String → Option (List V))
    (itemApi : String → Option V) (uuid : ℕ → String)
    (coll : List (ChromaItem V)) :
    (ChromaManager.load_from_json batchApi itemApi uuid none coll =
      some (coll, 0)) ∧
    (ChromaManager.load_from_json batchApi itemApi uuid (some []) coll =
      some (coll, 0)) ∧
    (∀ ps : List Practice, ps ≠ [] → ∀ embs : List V,
      Embedding.get_embeddings_batch batchApi itemApi
        (ps.map ChromaManager.create_search_text) = some embs →
      embs.length = ps.length →
      ChromaManager.load_from_json batchApi itemApi uuid (some ps) coll =
        some (ChromaManager.buildItems
          (ps.mapIdx fun k p => ChromaManager.practiceId uuid k p) embs
          (ps.map ChromaManager.practiceMeta)
          (ps.map ChromaManager.create_search_text), ps.length) ∧
      (ChromaManager.buildItems
          (ps.mapIdx fun k p => ChromaManager.practiceId uuid k p) embs
          (ps.map ChromaManager.practiceMeta)
          (ps.map ChromaManager.create_search_text)).length = ps.length) := by
  refine ⟨rfl, rfl, ?_⟩
  intro ps hne embs hemb hlen
  have hids : (ps.mapIdx fun k p => ChromaManager.practiceId uuid k p).length =
      ps.length := by
    simp
  constructor
  · simp only [ChromaManager.load_from_json, hemb]
    rw [if_neg (fun hh => hne (List.isEmpty_iff.mp hh)),
      if_pos (by rw [hlen]; exact hids.symm), List.nil_append]
  · unfold ChromaManager.buildItems
    rw [List.length_zipWith, List.length_zip, List.length_zip]
    simp [hlen, hids]

/-- Witness for the amended C6: one record, a batch provider returning
one vector, an old item in the collection; the rebuild replaces the old
contents with the single new item and returns 1. -/
theorem C6_rebuild_witness :
    ChromaManager.load_from_json (V := ℚ)
      (fun docs => some (docs.map fun _ => 7)) (fun _ => some 7)
      (fun _ => "u0")
      (some [⟨some "p1", some "Title", some "Desc", ["tag"], some "css",
        some "code", some "T0", some "T1", none, none, none⟩])
      [⟨"old", 3, ⟨"t", "other", "code", "", "", "", false, false, false⟩,
        "olddoc"⟩] =
      some (ChromaManager.buildItems
        ([(⟨some "p1", some "Title", some "Desc", ["tag"], some "css",
            some "code", some "T0", some "T1", none, none, none⟩ :
            Practice)].mapIdx fun k p =>
          ChromaManager.practiceId (fun _ => "u0") k p) [7]
        ([⟨some "p1", some "Title", some "Desc", ["tag"], some "css",
            some "code", some "T0", some "T1", none, none, none⟩].map
          ChromaManager.practiceMeta)
        ([⟨some "p1", some "Title", some "Desc", ["tag"], some "css",
            some "code", some "T0", some "T1", none, none, none⟩].map
          ChromaManager.create_search_text), 1) :=
  ((C6_rebuild ℚ (fun docs => some (docs.map fun _ => 7)) (fun _ => some 7)
    (fun _ => "u0")
    [⟨"old", 3, ⟨"t", "other", "code", "", "", "", false, false, false⟩,
      "olddoc"⟩]).2.2
    [⟨some "p1", some "Title", some "Desc", ["tag"], some "css", some "code",
      some "T0", some "T1", none, none, none⟩]
    (by simp) [7] rfl rfl).1

/-- C8 is false as stated: deleting an id that is not in the collection
returns `True`, not `False` — Chroma's `collection.delete` silently
no-ops on missing ids, so the `try` branch succeeds; the collection is
unchanged and no error is raised. -/
theorem C8_counterexample :
    (ChromaManager.delete ([] : List (ChromaItem ℚ)) "missing-id").2 ≠ false ∧
    (ChromaManager.delete ([] : List (ChromaItem ℚ)) "missing-id").1 = [] :=
  ⟨by decide, rfl⟩

/-- C8 (amended): deleting an id not present in the collection is a
no-op that returns `True` (the underlying delete succeeds silently),
never raises, and leaves the collection contents unchanged. -/
theorem C8_delete_missing_noop (V : Type) (coll : List (ChromaItem V))
    (practice_id : String) (h : ∀ item ∈ coll, item.id ≠ practice_id) :
    ChromaManager.delete coll practice_id = (coll, true) := by
  have hf : coll.filter (fun item => item.id ≠ practice_id) = coll :=
    List.filter_eq_self.mpr (fun item hitem => by simpa using h item hitem)
  unfold ChromaManager.delete
  rw [hf]

/-- Witness for the amended C8: deleting a missing id from a one-item
collection returns the collection unchanged with `True`. -/
theorem C8_delete_missing_noop_witness :
    ChromaManager.delete
      [(⟨"id1", (1 : ℚ), ⟨"t", "other", "code", "", "", "", false, false,
        false⟩, "doc"⟩ : ChromaItem ℚ)] "missing-id" =
      ([⟨"id1", 1, ⟨"t", "other", "code", "", "", "", false, false, false⟩,
        "doc"⟩], true) :=
  C8_delete_missing_noop ℚ
    [⟨"id1", 1, ⟨"t", "other", "code", "", "", "", false, false, false⟩,
      "doc"⟩] "missing-id" (by decide)
